import Mathlib

/-!
Verification of the plugin-octav repository: a shallow embedding of the
address extractor, keyword validator, portfolio provider, action handler and
response formatter, together with theorems settling the specification claims.

Modelling conventions.
JavaScript strings are Lean strings (the source only manipulates ASCII and a
few fixed literal characters).  Monetary fields are decimal strings per the
data-model invariant, so Number(...) is modelled as exact rational parsing
(exponents, hex literals and Infinity never occur in this data and are not
modelled); NaN is modelled as Option.none.  JavaScript objects with string
keys (chains, assetByProtocols) are insertion-ordered association lists.
The HTTP world is an explicit oracle argument mapping the queried address to
a fetch outcome; process.env.OCTAV_API_KEY is an explicit Option String
argument.  Async functions that cannot reject are total Lean functions; the
handler, whose second callback invocation inside its catch block can reject,
returns an Except.
-/

namespace Octav

/-! ### Data model (src/types/index.ts) -/

/-- src/types/index.ts `Chain`: per-chain slice of a portfolio. -/
structure Chain where
  name : String
  key : String
  value : String
  totalCostBasis : String
  totalClosedPnl : String
  totalOpenPnl : String
deriving DecidableEq

/-- src/types/index.ts `AssetByProtocols` entry: per-protocol slice; the
nested per-protocol `chains` breakdown is carried but unused by the
formatter. -/
structure Protocol where
  name : String
  key : String
  value : String
  totalCostBasis : String
  totalClosedPnl : String
  totalOpenPnl : String
  chains : List (String × Chain)
deriving DecidableEq

/-- src/types/index.ts `OctavPortfolioBalance`.  The two string-keyed object
types become insertion-ordered association lists. -/
structure OctavPortfolioBalance where
  address : String
  networth : String
  assetByProtocols : List (String × Protocol)
  chains : List (String × Chain)
deriving DecidableEq

/-! ### Numeric model: JavaScript Number(...) and .toFixed(2) on decimal
strings.  A parsed decimal is kept exactly as an integer mantissa together
with its count of fraction digits (the denoted number is
mant / 10 ^ frac); `jsNumQ` is the denotation into ℚ used by the
specification-side statements. -/

/-- Exact value of a parsed decimal string. -/
structure JsNum where
  mant : ℤ
  frac : ℕ
deriving DecidableEq

/-- Denotation of a parsed decimal into ℚ. -/
def jsNumQ (v : JsNum) : ℚ := (v.mant : ℚ) / 10 ^ v.frac

/-- One decimal digit as a character, `0`..`9`. -/
def digitChar (n : ℕ) : Char := Char.ofNat (48 + n)

/-- Numeric value of a digit list (most significant first). -/
def digitsVal (ds : List Char) : ℕ :=
  ds.foldl (fun acc c => 10 * acc + (c.toNat - 48)) 0

/-- Parse an unsigned decimal literal `digits[.digits]` (either digit group,
but not both, may be empty), exactly consuming the input. -/
def parseUnsigned (cs : List Char) : Option JsNum :=
  let ip := cs.takeWhile Char.isDigit
  let rest := cs.dropWhile Char.isDigit
  match rest with
  | [] => if ip = [] then none else some ⟨digitsVal ip, 0⟩
  | '.' :: rest2 =>
    let fp := rest2.takeWhile Char.isDigit
    let rest3 := rest2.dropWhile Char.isDigit
    if rest3 = [] ∧ ¬(ip = [] ∧ fp = []) then
      some ⟨digitsVal ip * 10 ^ fp.length + digitsVal fp, fp.length⟩
    else none
  | _ => none

/-- The whitespace JavaScript trims around a numeric string (the characters
that can occur in this data). -/
def jsWhitespace (c : Char) : Bool :=
  c = ' ' || c = '\t' || c = '\n' || c = '\r'

/-- Whitespace trim on both ends. -/
def jsTrim (cs : List Char) : List Char :=
  ((cs.dropWhile jsWhitespace).reverse.dropWhile jsWhitespace).reverse

/-- JavaScript `Number(s)` on the decimal strings of this data model:
whitespace-trimmed, empty string is 0, optional sign, decimal point;
`none` models NaN (exponent, hexadecimal and Infinity forms never occur in
this data and are not modelled). -/
def jsNumber (s : String) : Option JsNum :=
  match jsTrim s.toList with
  | [] => some ⟨0, 0⟩
  | '-' :: rest => (parseUnsigned rest).map (fun v => ⟨-v.mant, v.frac⟩)
  | '+' :: rest => parseUnsigned rest
  | cs => parseUnsigned cs

/-- The integer closest to `100 * (m / 10 ^ e)` for natural `m`, ties to the
larger candidate, computed without leaving ℕ:
`⌊(100 * m / 10 ^ e) + 1/2⌋ = (200 * m + 10 ^ e) / (2 * 10 ^ e)`. -/
def roundCents (m : ℕ) (e : ℕ) : ℕ :=
  (200 * m + 10 ^ e) / (2 * 10 ^ e)

/-- Rendering of the scaled-by-100 nonnegative value `n` as
`<n/100>.<two digits>`, as `toFixed(2)` does after rounding. -/
def jsToFixed2OfNat (n : ℕ) : String :=
  toString (n / 100) ++ String.mk ['.', digitChar (n / 10 % 10), digitChar (n % 10)]

/-- JavaScript `x.toFixed(2)` for a (finite) numeric value: sign first, then
the nonnegative part rounded to the nearest hundredth, ties to the larger
candidate (ECMA-262 picks the larger `n` when two are equally close). -/
def jsToFixed2 (v : JsNum) : String :=
  if v.mant < 0 then "-" ++ jsToFixed2OfNat (roundCents (-v.mant).toNat v.frac)
  else jsToFixed2OfNat (roundCents v.mant.toNat v.frac)

/-- `Number(s).toFixed(2)` as used on every monetary value in the formatter;
`NaN.toFixed(2)` is the string `"NaN"`. -/
def jsNumberToFixed2 (s : String) : String :=
  match jsNumber s with
  | some v => jsToFixed2 v
  | none => "NaN"

/-! ### Address extractor: the regular expression `0x[a-fA-F0-9]{40}` used
by both the provider and the handler (first match, case preserved) -/

/-- One character of the class `[a-fA-F0-9]`. -/
def isHexDigit (c : Char) : Bool :=
  (('0' ≤ c) && (c ≤ '9')) || (('a' ≤ c) && (c ≤ 'f')) || (('A' ≤ c) && (c ≤ 'F'))

/-- Try to match `0x[a-fA-F0-9]{40}` at the head of the character list,
returning the 42-character match. -/
def matchAddrAt (cs : List Char) : Option (List Char) :=
  match cs with
  | c0 :: c1 :: rest =>
    if c0 = '0' ∧ c1 = 'x' ∧ (rest.take 40).length = 40 ∧ (rest.take 40).all isHexDigit
    then some (c0 :: c1 :: rest.take 40) else none
  | _ => none

/-- `text.match(/0x[a-fA-F0-9]{40}/)`: the leftmost match, scanning start
positions from the left as the regular-expression engine does. -/
def extractAddress : List Char → Option (List Char)
  | [] => none
  | c :: cs =>
    match matchAddrAt (c :: cs) with
    | some a => some a
    | none => extractAddress cs

/-- String-level wrapper for the address match. -/
def extractAddressS (s : String) : Option String :=
  (extractAddress s.toList).map String.mk

/-- `addrAt cs i` holds when the address pattern matches at position `i`. -/
def addrAt (cs : List Char) (i : ℕ) : Bool :=
  (matchAddrAt (cs.drop i)).isSome

/-! ### Keyword validation (src/actions/index.ts, validate) -/

/-- JavaScript `hay.includes(pat)`: substring containment. -/
def includesSub (hay pat : List Char) : Bool :=
  decide (pat <:+: hay)

/-- The fixed keyword list of `getPortfolioBalancesAction.validate`. -/
def fetchPortfolioBalancesKeyword : List String :=
  ["fetch portfolio",
   "get portfolio",
   "list portfolio balances",
   "portfolio",
   "display portfolio balances"]

/-- `getPortfolioBalancesAction.validate`: lowercase the message text
(`message.content?.text?.toLowerCase() || ""`; the keywords and this ASCII
data make `toLowerCase` per-character) and test substring containment
against the keyword list. -/
def validateGetPortfolio (messageText : Option String) : Bool :=
  let content := ((messageText.map String.toList).getD []).map Char.toLower
  fetchPortfolioBalancesKeyword.any (fun keyword => includesSub content keyword.toList)

/-! ### Response formatter (src/actions/index.ts, formatPortfolioBalancesResponse) -/

/-- The `{name, value}` pair the protocol entries are reduced to. -/
structure NamedValue where
  name : String
  value : String
deriving DecidableEq

/-- The sort comparator `(a, b) => Number(b.value) - Number(a.value)` turned
into a boolean "a may precede b" relation: the comparator result is ≤ 0.
ECMA-262 SortCompare treats a NaN comparator result as +0, hence `true` when
either value fails to parse. -/
def protoLe (a b : NamedValue) : Bool :=
  match jsNumber b.value, jsNumber a.value with
  | some vb, some va => decide (vb.mant * 10 ^ va.frac ≤ va.mant * 10 ^ vb.frac)
  | _, _ => true

/-- Specification-side numeric key of a protocol entry: the rational value
its decimal string denotes (0 when it does not parse). -/
def protoQ (p : NamedValue) : ℚ := jsNumQ ((jsNumber p.value).getD ⟨0, 0⟩)

/-- `Array.prototype.sort` with the descending-by-value comparator.
ECMAScript sort is stable (ES2019), modelled by insertion sort, which is
stable for the same comparator-consistent order. -/
def sortProtocols (l : List NamedValue) : List NamedValue :=
  List.insertionSort (fun a b => protoLe a b = true) l

/-- `findIndex`, `splice(walletIndex, 1)` and `unshift(wallet)`: move the
first entry named exactly "Wallet", when present, to the front. -/
def walletFirst (l : List NamedValue) : List NamedValue :=
  match l.findIdx? (fun p => p.name == "Wallet") with
  | some i =>
    match l.get? i with
    | some w => w :: l.eraseIdx i
    | none => l
  | none => l

/-- Reduction of the `assetByProtocols` entries to `{name, value}` pairs. -/
def protoPairs (assetByProtocols : List (String × Protocol)) : List NamedValue :=
  assetByProtocols.map (fun e => NamedValue.mk e.2.name e.2.value)

/-- The full ordering pipeline of the protocol section: reduce, sort
descending by numeric value, then force "Wallet" first. -/
def protocolOrder (assetByProtocols : List (String × Protocol)) : List NamedValue :=
  walletFirst (sortProtocols (protoPairs assetByProtocols))

/-- JavaScript `Array.prototype.join("\n")`. -/
def joinNL : List String → String
  | [] => ""
  | [x] => x
  | x :: y :: xs => x ++ "\n" ++ joinNL (y :: xs)

/-- One line of the chain section: `` `${chain.name}: $${Number(chain.value).toFixed(2)}` ``. -/
def chainLine (c : Chain) : String :=
  c.name ++ ": $" ++ jsNumberToFixed2 c.value

/-- The `networthPerChain` string: one line per chain entry, in insertion
order, joined by newlines. -/
def chainLines (chains : List (String × Chain)) : String :=
  joinNL (chains.map (fun e => chainLine e.2))

/-- One line of the protocol section: `` `${protocol.name}: $${Number(protocol.value).toFixed(2)}` ``. -/
def protocolLine (p : NamedValue) : String :=
  p.name ++ ": $" ++ jsNumberToFixed2 p.value

/-- The `networthProtocolStr` string. -/
def protocolLinesStr (assetByProtocols : List (String × Protocol)) : String :=
  joinNL ((protocolOrder assetByProtocols).map protocolLine)

/-- The template-literal ternary `` s ? s : fallback ``: an empty string is
falsy. -/
def orElse (s fallback : String) : String :=
  if s = "" then fallback else s

/-- Template piece up to and including the line of dashes under
"Networth per Chain".  The source file literally contains the mojibake
characters reproduced here. -/
def headerPart (p : OctavPortfolioBalance) : String :=
  "=== ðŸ“ˆ Portfolio Balances (in USD) ðŸ“ˆ ===\n\nAddress: " ++ p.address
    ++ "\nTotal Networth: $" ++ jsNumberToFixed2 p.networth
    ++ "\n    \nNetworth per Chain:\n-----------------------------\n"

/-- Template piece between the chain section and the protocol section. -/
def midPart : String :=
  "\n    \nNetworth per Protocol:\n-----------------------------\n"

/-- Template piece after the protocol section. -/
def tailPart : String :=
  "\n\n============================="

/-- `formatPortfolioBalancesResponse`. -/
def formatPortfolioBalancesResponse (p : OctavPortfolioBalance) : String :=
  headerPart p
    ++ orElse (chainLines p.chains) "No data available for chains."
    ++ midPart
    ++ orElse (protocolLinesStr p.assetByProtocols) "No data available for protocols."
    ++ tailPart

/-! ### Provider (src/providers/index.ts, octavProvider.get) -/

/-- Outcome of the single `fetch` of the provider, as seen by the caller:
a parsed JSON body, a non-ok HTTP status (carrying `statusText`), a rejected
`fetch` (network failure), or a rejected `.json()` (parse failure). -/
inductive FetchOutcome where
  | ok (body : List OctavPortfolioBalance)
  | httpError (statusText : String)
  | networkError (msg : String)
  | jsonError (msg : String)
deriving DecidableEq

/-- The `ProviderResult` fields the provider ever sets.  The type has no
`success` field at all; the host `ProviderResult` shape is `{text?, values?,
data?}` and `values` is never set. -/
structure ProviderResult where
  text : Option String
  data : Option OctavPortfolioBalance
deriving DecidableEq

/-- Message of `new Error("Octav API not found")`. -/
def octavApiNotFoundMsg : String := "Octav API not found"

/-- Message of `new Error("Valid ethereum address not found in message")`. -/
def addressNotFoundMsg : String := "Valid ethereum address not found in message"

/-- Message of the TypeError raised by `content.text.match(...)` when the
message content has no `text`. -/
def undefinedMatchMsg : String :=
  "Cannot read properties of undefined (reading \x27match\x27)"

/-- Message of the error thrown on a non-ok HTTP response. -/
def failedFetchMsg (address statusText : String) : String :=
  "Failed to fetch portfolio balances for " ++ address ++ ": " ++ statusText

/-- `octavProvider.get`.  `apiKey` models `process.env.OCTAV_API_KEY`
(`none` = unset; the empty string is falsy too, matching `!process.env.X`),
`messageText` models `message.content.text`, and `fetchOutcome` is the HTTP
world: what the single GET for the extracted address would yield.  Every
thrown error is caught by the surrounding try/catch and becomes a text-only
result, so the function is total. -/
def octavProviderGet (apiKey : Option String) (messageText : Option String)
    (fetchOutcome : String → FetchOutcome) : ProviderResult :=
  if apiKey.getD "" = "" then ⟨some octavApiNotFoundMsg, none⟩
  else
    match messageText with
    | none => ⟨some undefinedMatchMsg, none⟩
    | some text =>
      match extractAddressS text with
      | none => ⟨some addressNotFoundMsg, none⟩
      | some address =>
        match fetchOutcome address with
        | FetchOutcome.ok body => ⟨none, body.head?⟩
        | FetchOutcome.httpError statusText =>
          ⟨some (failedFetchMsg address statusText), none⟩
        | FetchOutcome.networkError m => ⟨some m, none⟩
        | FetchOutcome.jsonError m => ⟨some m, none⟩

/-! ### Action handler (src/actions/index.ts, getPortfolioBalancesAction.handler) -/

/-- The `ActionResult` fields the claims are about.  The `values`/`data`
payloads and the `Date.now()` timestamp of the source are side data not
modelled; `error` holds the message of the returned error value. -/
structure ActionResult where
  success : Bool
  text : Option String
  error : Option String
deriving DecidableEq

/-- `sucessfullActionMessage` (spelling as in the source). -/
def sucessfullActionMessage : String :=
  "Sucessfully Fetched portfolio balances on Octav \n"

/-- `getPortfolioBalancesAction.handler`.  The optional callback is modelled
by its observable behaviour: `cb false` is what the success-content
invocation does and `cb true` what the error-content invocation inside the
catch block does (`none` = returns, `some m` = throws an error with message
`m`).  A callback that throws on both invocations makes the handler itself
reject, hence the `Except`.  The provider itself never throws. -/
def getPortfolioHandler (apiKey : Option String) (messageText : Option String)
    (fetchOutcome : String → FetchOutcome)
    (callback : Option (Bool → Option String)) : Except String ActionResult :=
  let response := octavProviderGet apiKey messageText fetchOutcome
  match response.data with
  | none => Except.ok ⟨false, none, some "No data"⟩
  | some dataTyped =>
    let formattedResponse := formatPortfolioBalancesResponse dataTyped
    let okText := "âœ… " ++ sucessfullActionMessage ++ " \n " ++ formattedResponse
    match callback with
    | none => Except.ok ⟨true, some okText, none⟩
    | some cb =>
      match cb false with
      | none => Except.ok ⟨true, some okText, none⟩
      | some errMsg =>
        match cb true with
        | some m2 => Except.error m2
        | none => Except.ok ⟨false, some ("âŒ " ++ errMsg), some errMsg⟩

/-! ### Concrete values used by witnesses and counterexamples -/

/-- Message text used by witnesses: two addresses, only the first counts. -/
def witnessText : String :=
  "send 0xEF7F2e81EA14538858d962df34eB1bFDa83da395 and 0x0000000000000000000000000000000000000000"

/-- The first address of `witnessText`. -/
def witnessAddr : String := "0xEF7F2e81EA14538858d962df34eB1bFDa83da395"

/-- The protocols map `\x7bA: 10, Wallet: 1, B: 100\x7d` of the formatter
example. -/
def exampleProtocols : List (String × Protocol) :=
  [("a", ⟨"A", "a", "10", "0", "0", "0", []⟩),
   ("wallet", ⟨"Wallet", "wallet", "1", "0", "0", "0", []⟩),
   ("b", ⟨"B", "b", "100", "0", "0", "0", []⟩)]

/-- A concrete portfolio snapshot (the end-to-end example of the spec). -/
def examplePortfolio : OctavPortfolioBalance :=
  ⟨"0xEF7F2e81EA14538858d962df34eB1bFDa83da395", "500.5",
   [("wallet", ⟨"Wallet", "wallet", "500.5", "0", "0", "0", []⟩)],
   [("eth", ⟨"Ethereum", "eth", "500.5", "0", "0", "0"⟩)]⟩

/-- A message text that passes validation and carries an address. -/
def cexText : String :=
  "fetch portfolio of 0xEF7F2e81EA14538858d962df34eB1bFDa83da395"

/-- A fetch oracle whose request always fails with a non-2xx status. -/
def cexFetch : String → FetchOutcome := fun _ => FetchOutcome.httpError "Unauthorized"

/-- A fetch oracle that always succeeds with one portfolio. -/
def okFetch : String → FetchOutcome := fun _ => FetchOutcome.ok [examplePortfolio]

end Octav

namespace Octav

/-! ### Theorems -/

/-- C4: while `OCTAV_API_KEY` is absent, the provider returns the constant
result whose `text` is the configuration error message and which carries no
data; the result is this constant for every fetch oracle, i.e. it does not
depend on (hence performs) any network interaction, and the
`ProviderResult` shape has no `success` field at all. -/
theorem provider_missing_key (messageText : Option String)
    (fetchOutcome : String → FetchOutcome) :
    octavProviderGet none messageText fetchOutcome =
      ⟨some octavApiNotFoundMsg, none⟩ := rfl

/-- C9: the formatter is deterministic: in this embedding
`formatPortfolioBalancesResponse` is a pure function of the
`OctavPortfolioBalance` value (it reads no clock, environment or other
state), so two calls on the same value yield identical text. -/
theorem formatter_deterministic (p : OctavPortfolioBalance) :
    formatPortfolioBalancesResponse p = formatPortfolioBalancesResponse p := rfl

/-- C8: `validate` returns true exactly when the lowercased message text
contains one of the five keyword phrases as a substring; moreover a text
containing none of them yields false and one containing a keyword yields
true, shown on concrete inputs. -/
theorem validate_keyword_iff :
    (∀ messageText : Option String,
      validateGetPortfolio messageText = true ↔
        ∃ keyword ∈ fetchPortfolioBalancesKeyword,
          keyword.toList <:+:
            ((messageText.map String.toList).getD []).map Char.toLower) ∧
    validateGetPortfolio (some "Show My PORTFOLIO please") = true ∧
    validateGetPortfolio (some "hello there") = false := by
  refine ⟨fun messageText => ?_, by decide, by decide⟩
  simp [validateGetPortfolio, includesSub, List.any_eq_true]

/-- Witness for C8: the keyword containment produced by the theorem at a
concrete input. -/
theorem validate_keyword_iff_witness :
    ∃ keyword ∈ fetchPortfolioBalancesKeyword,
      keyword.toList <:+:
        (((some "Show My PORTFOLIO please").map String.toList).getD []).map
          Char.toLower :=
  (validate_keyword_iff.1 (some "Show My PORTFOLIO please")).mp (by decide)

/-- A successful head match is the first 42 characters of its input. -/
theorem matchAddrAt_eq_take {cs a : List Char} (h : matchAddrAt cs = some a) :
    a = cs.take 42 := by
  rcases cs with _ | ⟨c0, _ | ⟨c1, rest⟩⟩
  · simp [matchAddrAt] at h
  · simp [matchAddrAt] at h
  · simp only [matchAddrAt] at h
    split at h
    · cases h
      rfl
    · cases h

/-- C2: the address extractor returns the leftmost occurrence of the pattern
`0x` followed by 40 hexadecimal characters, as the exact 42-character slice
of the input at that position (hence with case preserved, ignoring any later
match), and returns nothing exactly when no position matches. -/
theorem address_extractor_first_match (cs : List Char) :
    (extractAddress cs = none ↔ ∀ i, addrAt cs i = false) ∧
    (∀ a, extractAddress cs = some a →
      ∃ i, addrAt cs i = true ∧ (∀ j, j < i → addrAt cs j = false) ∧
        a = (cs.drop i).take 42) := by
  induction cs with
  | nil =>
    refine ⟨⟨fun _ i => ?_, fun _ => rfl⟩, fun a h => ?_⟩
    · simp [addrAt, matchAddrAt]
    · simp [extractAddress] at h
  | cons c cs ih =>
    rcases hm : matchAddrAt (c :: cs) with _ | a0
    · have hex : extractAddress (c :: cs) = extractAddress cs := by
        simp [extractAddress, hm]
      have hshift : ∀ j, addrAt (c :: cs) (j + 1) = addrAt cs j := by
        intro j
        simp [addrAt, List.drop_succ_cons]
      have h0 : addrAt (c :: cs) 0 = false := by
        simp [addrAt, hm]
      constructor
      · rw [hex, ih.1]
        constructor
        · intro h i
          cases i with
          | zero => exact h0
          | succ j => rw [hshift]; exact h j
        · intro h j
          have hj := h (j + 1)
          rwa [hshift] at hj
      · intro a ha
        rw [hex] at ha
        obtain ⟨i, hi1, hi2, hi3⟩ := ih.2 a ha
        refine ⟨i + 1, ?_, ?_, ?_⟩
        · rw [hshift]; exact hi1
        · intro j hj
          cases j with
          | zero => exact h0
          | succ k => rw [hshift]; exact hi2 k (Nat.lt_of_succ_lt_succ hj)
        · rw [List.drop_succ_cons]; exact hi3
    · have hex : extractAddress (c :: cs) = some a0 := by
        simp [extractAddress, hm]
      constructor
      · rw [hex]
        constructor
        · intro h; cases h
        · intro hall
          have h0 := hall 0
          simp [addrAt, hm] at h0
      · intro a ha
        rw [hex] at ha
        cases ha
        refine ⟨0, ?_, ?_, ?_⟩
        · simp [addrAt, hm]
        · intro j hj; cases hj
        · simpa using matchAddrAt_eq_take hm

/-- Witness for C2: on a text holding two addresses the extractor finds a
position that matches, before which nothing matches, whose 42-character
slice is exactly the first address. -/
theorem address_extractor_first_match_witness :
    ∃ i, addrAt witnessText.toList i = true ∧
      (∀ j, j < i → addrAt witnessText.toList j = false) ∧
      witnessAddr.toList = (witnessText.toList.drop i).take 42 :=
  (address_extractor_first_match witnessText.toList).2 witnessAddr.toList rfl

/-- On parseable values the comparator relation is exactly the reversed
order of the denoted rationals. -/
theorem protoLe_iff {a b : NamedValue} (ha : (jsNumber a.value).isSome = true)
    (hb : (jsNumber b.value).isSome = true) :
    (protoLe a b = true ↔ protoQ b ≤ protoQ a) := by
  obtain ⟨va, hva⟩ := Option.isSome_iff_exists.mp ha
  obtain ⟨vb, hvb⟩ := Option.isSome_iff_exists.mp hb
  simp only [protoLe, hva, hvb, protoQ, jsNumQ, Option.getD_some, decide_eq_true_eq]
  rw [div_le_div_iff₀ (by positivity) (by positivity)]
  constructor
  · intro h
    exact_mod_cast h
  · intro h
    exact_mod_cast h

/-- Inserting an element with a parseable value into a list of parseable
values that is sorted descending by denoted value keeps it sorted. -/
theorem pairwise_orderedInsert (a : NamedValue) (l : List NamedValue)
    (hall : ∀ p ∈ a :: l, (jsNumber p.value).isSome = true)
    (hl : l.Pairwise (fun x y => protoQ y ≤ protoQ x)) :
    (List.orderedInsert (fun x y => protoLe x y = true) a l).Pairwise
      (fun x y => protoQ y ≤ protoQ x) := by
  induction l with
  | nil => simp [List.orderedInsert]
  | cons b l ih =>
    have ha : (jsNumber a.value).isSome = true := hall a (by simp)
    have hb : (jsNumber b.value).isSome = true := hall b (by simp)
    obtain ⟨hbl, hl'⟩ := List.pairwise_cons.mp hl
    by_cases hab : protoLe a b = true
    · rw [List.orderedInsert, if_pos hab]
      have hba : protoQ b ≤ protoQ a := (protoLe_iff ha hb).mp hab
      refine List.pairwise_cons.mpr ⟨?_, List.pairwise_cons.mpr ⟨hbl, hl'⟩⟩
      intro x hx
      rcases List.mem_cons.mp hx with rfl | hxl
      · exact hba
      · exact le_trans (hbl x hxl) hba
    · rw [List.orderedInsert, if_neg hab]
      have hab' : protoQ a ≤ protoQ b :=
        le_of_lt (lt_of_not_le (fun hc => hab ((protoLe_iff ha hb).mpr hc)))
      refine List.pairwise_cons.mpr ⟨?_, ?_⟩
      · intro x hx
        rcases (List.mem_orderedInsert _).mp hx with rfl | hxl
        · exact hab'
        · exact hbl x hxl
      · refine ih (fun p hp => ?_) hl'
        rcases List.mem_cons.mp hp with rfl | hpl
        · exact ha
        · exact hall p (List.mem_cons_of_mem _ (List.mem_cons_of_mem _ hpl))

/-- The sort of the protocol section yields a descending-by-value list
whenever every value parses. -/
theorem pairwise_sortProtocols (l : List NamedValue)
    (hall : ∀ p ∈ l, (jsNumber p.value).isSome = true) :
    (sortProtocols l).Pairwise (fun x y => protoQ y ≤ protoQ x) := by
  induction l with
  | nil => simp [sortProtocols, List.insertionSort]
  | cons a l ih =>
    rw [sortProtocols, List.insertionSort]
    refine pairwise_orderedInsert a _ (fun p hp => ?_)
      (ih (fun p hp => hall p (List.mem_cons_of_mem _ hp)))
    rcases List.mem_cons.mp hp with rfl | hpl
    · exact hall p (by simp)
    · exact hall p
        (List.mem_cons_of_mem _ (((List.perm_insertionSort _ l).mem_iff).mp hpl))

/-- When no entry is named "Wallet" the reorder step is the identity. -/
theorem walletFirst_of_absent (l : List NamedValue)
    (h : ∀ p ∈ l, p.name ≠ "Wallet") : walletFirst l = l := by
  have hnone : l.findIdx? (fun p => p.name == "Wallet") = none := by
    rw [List.findIdx?_eq_none_iff]
    intro x hx
    simpa using h x hx
  simp [walletFirst, hnone]

/-- When some entry is named "Wallet", the first such entry is removed from
its place and reinserted at position 0, everything else kept in order. -/
theorem walletFirst_of_present (l : List NamedValue)
    (hex : ∃ p ∈ l, p.name = "Wallet") :
    ∃ w l₁ l₂, l = l₁ ++ w :: l₂ ∧ w.name = "Wallet" ∧
      (∀ p ∈ l₁, p.name ≠ "Wallet") ∧ walletFirst l = w :: (l₁ ++ l₂) := by
  rcases hidx : l.findIdx? (fun p => p.name == "Wallet") with _ | i
  · obtain ⟨p, hp, hpn⟩ := hex
    rw [List.findIdx?_eq_none_iff] at hidx
    have := hidx p hp
    simp [hpn] at this
  · obtain ⟨hlen, hpi, hbefore⟩ := List.findIdx?_eq_some_iff_getElem.mp hidx
    refine ⟨l[i], l.take i, l.drop (i + 1), ?_, by simpa using hpi, ?_, ?_⟩
    · conv_lhs => rw [← List.take_append_drop i l, List.drop_eq_getElem_cons hlen]
    · intro p hp
      obtain ⟨j, hj, hpj⟩ := List.getElem_of_mem hp
      have hji : j < i := lt_of_lt_of_le hj (by simp [List.length_take])
      have := hbefore j hji
      rw [List.getElem_take] at hpj
      rw [← hpj]
      simpa using this
    · rw [walletFirst, hidx]
      simp only [List.get?_eq_getElem?, List.getElem?_eq_getElem hlen,
        List.eraseIdx_eq_take_drop_succ]

/-- C3: the protocol section first reduces the protocol map to name/value
pairs, then sorts descending by denoted numeric value (shown for lists of
parseable values), and finally, when an entry named exactly "Wallet" exists
in the sorted list, removes its first occurrence and reinserts it at
position 0; on the protocols A: 10, Wallet: 1, B: 100 the resulting order is
Wallet, B, A. -/
theorem protocol_section_order :
    (∀ aps, protocolOrder aps = walletFirst (sortProtocols (protoPairs aps))) ∧
    (∀ l : List NamedValue, (∀ p ∈ l, p.name ≠ "Wallet") → walletFirst l = l) ∧
    (∀ l : List NamedValue, (∃ p ∈ l, p.name = "Wallet") →
      ∃ w l₁ l₂, l = l₁ ++ w :: l₂ ∧ w.name = "Wallet" ∧
        (∀ p ∈ l₁, p.name ≠ "Wallet") ∧ walletFirst l = w :: (l₁ ++ l₂)) ∧
    (∀ l : List NamedValue, (∀ p ∈ l, (jsNumber p.value).isSome = true) →
      (sortProtocols l).Pairwise (fun x y => protoQ y ≤ protoQ x)) ∧
    (protocolOrder exampleProtocols).map NamedValue.name = ["Wallet", "B", "A"] :=
  ⟨fun _ => rfl, walletFirst_of_absent, walletFirst_of_present,
    pairwise_sortProtocols, by decide⟩

/-- Witness for C3: the hypothesis-carrying conjuncts applied at concrete
lists. -/
theorem protocol_section_order_witness :
    walletFirst [NamedValue.mk "A" "10"] = [NamedValue.mk "A" "10"] ∧
    (∃ w l₁ l₂,
      ([NamedValue.mk "B" "100", NamedValue.mk "Wallet" "1"] : List NamedValue) =
        l₁ ++ w :: l₂ ∧ w.name = "Wallet" ∧ (∀ p ∈ l₁, p.name ≠ "Wallet") ∧
        walletFirst [NamedValue.mk "B" "100", NamedValue.mk "Wallet" "1"] =
          w :: (l₁ ++ l₂)) ∧
    (sortProtocols [NamedValue.mk "A" "10", NamedValue.mk "B" "100"]).Pairwise
      (fun x y => protoQ y ≤ protoQ x) :=
  ⟨protocol_section_order.2.1 _ (by decide),
   protocol_section_order.2.2.1 _ (by decide),
   protocol_section_order.2.2.2.1 _ (by decide)⟩

/-- The join of a nonempty line list is at least as long as its first line. -/
theorem joinNL_length_ge (x : String) (xs : List String) :
    x.length ≤ (joinNL (x :: xs)).length := by
  cases xs with
  | nil => simp [joinNL]
  | cons y ys =>
    simp only [joinNL, String.length_append]
    omega

/-- A nonempty chain map renders to a nonempty string (every line contains
at least the three characters of its separator). -/
theorem chainLines_ne_empty (e : String × Chain) (rest : List (String × Chain)) :
    chainLines (e :: rest) ≠ "" := by
  intro h
  have h1 : (chainLine e.2).length ≤ (chainLines (e :: rest)).length := by
    simpa [chainLines] using
      joinNL_length_ge (chainLine e.2) (rest.map (fun x => chainLine x.2))
  have h2 : 0 < (chainLine e.2).length := by
    rw [chainLine, String.length_append, String.length_append]
    have h3 : (": $" : String).length = 3 := rfl
    omega
  rw [h] at h1
  have h0 : ("" : String).length = 0 := rfl
  omega

/-- C7: the chain section of the report is one line per entry of the chains
mapping, in insertion order, each `name: $value-with-two-decimals`, joined
by newlines; exactly when the mapping is empty, the section is the literal
placeholder "No data available for chains." instead. -/
theorem chain_section_lines (p : OctavPortfolioBalance) :
    (formatPortfolioBalancesResponse p =
      headerPart p
        ++ (if p.chains = [] then "No data available for chains."
            else chainLines p.chains)
        ++ midPart
        ++ orElse (protocolLinesStr p.assetByProtocols)
            "No data available for protocols."
        ++ tailPart) ∧
    chainLines p.chains =
      joinNL (p.chains.map
        (fun e => e.2.name ++ ": $" ++ jsNumberToFixed2 e.2.value)) := by
  refine ⟨?_, rfl⟩
  have hsec : orElse (chainLines p.chains) "No data available for chains." =
      (if p.chains = [] then "No data available for chains."
       else chainLines p.chains) := by
    cases hc : p.chains with
    | nil => simp [orElse, chainLines, joinNL]
    | cons e rest => simp [orElse, chainLines_ne_empty e rest]
  rw [formatPortfolioBalancesResponse, hsec]

/-- A decimal digit index below ten renders to a digit character. -/
theorem digitChar_isDigit {n : ℕ} (h : n < 10) : (digitChar n).isDigit = true := by
  interval_cases n <;> decide

/-- C6: every monetary value of the report is parsed and rendered through
`Number(...).toFixed(2)`: whenever the value parses, the rendering ends in a
decimal point followed by exactly two digit characters; "1234.5" renders as
"1234.50" and "0" as "0.00"; and the report prefixes the rendering with a
dollar sign (shown here for the networth value of every portfolio). -/
theorem money_two_decimals :
    (∀ s v, jsNumber s = some v → ∃ pre d₁ d₂,
      jsNumberToFixed2 s = pre ++ String.mk ['.', d₁, d₂] ∧
        d₁.isDigit = true ∧ d₂.isDigit = true) ∧
    jsNumberToFixed2 "1234.5" = "1234.50" ∧
    jsNumberToFixed2 "0" = "0.00" ∧
    (∀ p : OctavPortfolioBalance, ∃ pre post,
      formatPortfolioBalancesResponse p =
        pre ++ ("$" ++ jsNumberToFixed2 p.networth) ++ post) := by
  refine ⟨?_, rfl, rfl, ?_⟩
  · intro s v h
    have hshape : ∀ n : ℕ, ∃ pre d₁ d₂,
        jsToFixed2OfNat n = pre ++ String.mk ['.', d₁, d₂] ∧
          d₁.isDigit = true ∧ d₂.isDigit = true := by
      intro n
      exact ⟨toString (n / 100), digitChar (n / 10 % 10), digitChar (n % 10), rfl,
        digitChar_isDigit (Nat.mod_lt _ (by norm_num)),
        digitChar_isDigit (Nat.mod_lt _ (by norm_num))⟩
    simp only [jsNumberToFixed2, h]
    rw [jsToFixed2]
    by_cases hv : v.mant < 0
    · rw [if_pos hv]
      obtain ⟨pre, d₁, d₂, he, h1, h2⟩ := hshape (roundCents (-v.mant).toNat v.frac)
      exact ⟨"-" ++ pre, d₁, d₂, by rw [he, String.append_assoc], h1, h2⟩
    · rw [if_neg hv]
      exact hshape _
  · intro p
    refine ⟨"=== ðŸ“ˆ Portfolio Balances (in USD) ðŸ“ˆ ===\n\nAddress: " ++ p.address
        ++ "\nTotal Networth: ",
      "\n    \nNetworth per Chain:\n-----------------------------\n"
        ++ orElse (chainLines p.chains) "No data available for chains."
        ++ midPart
        ++ orElse (protocolLinesStr p.assetByProtocols)
            "No data available for protocols."
        ++ tailPart, ?_⟩
    rw [formatPortfolioBalancesResponse, headerPart]
    rw [show ("\nTotal Networth: $" : String) = "\nTotal Networth: " ++ "$" from rfl]
    simp only [String.append_assoc]

/-- Witness for C6: the two-decimal shape produced at a concrete value. -/
theorem money_two_decimals_witness :
    ∃ pre d₁ d₂,
      jsNumberToFixed2 "500.5" = pre ++ String.mk ['.', d₁, d₂] ∧
        d₁.isDigit = true ∧ d₂.isDigit = true :=
  money_two_decimals.1 "500.5" ⟨5005, 1⟩ rfl

/-- C5: with a truthy API key and a message text carrying an address, a
non-success HTTP status makes the provider fail with a text that is the
descriptive message containing both the address and the status text (and no
data), while a success status returns element 0 of the parsed body as the
result data. -/
theorem fetch_status_and_success :
    ∀ (key : String), ¬ key = "" → ∀ (text address : String),
      extractAddressS text = some address →
      ∀ (fetchOutcome : String → FetchOutcome),
      (∀ statusText, fetchOutcome address = FetchOutcome.httpError statusText →
        octavProviderGet (some key) (some text) fetchOutcome =
          ⟨some (failedFetchMsg address statusText), none⟩ ∧
        address.toList <:+: (failedFetchMsg address statusText).toList ∧
        statusText.toList <:+: (failedFetchMsg address statusText).toList) ∧
      (∀ body, fetchOutcome address = FetchOutcome.ok body →
        octavProviderGet (some key) (some text) fetchOutcome =
          ⟨none, body.head?⟩) := by
  intro key hkey text address hext f
  have hne : ¬ ((some key).getD "" = "") := by simpa using hkey
  constructor
  · intro st hst
    refine ⟨?_, ?_, ?_⟩
    · simp only [octavProviderGet, if_neg hne, hext, hst]
    · exact ⟨"Failed to fetch portfolio balances for ".toList, (": " ++ st).toList,
        by simp [failedFetchMsg, String.toList, String.data_append]⟩
    · exact ⟨("Failed to fetch portfolio balances for " ++ address ++ ": ").toList, [],
        by simp [failedFetchMsg, String.toList, String.data_append]⟩
  · intro body hb
    simp only [octavProviderGet, if_neg hne, hext, hb]

/-- Witness for C5: both branches of the theorem at concrete inputs. -/
theorem fetch_status_and_success_witness :
    (octavProviderGet (some "key") (some cexText) cexFetch =
        ⟨some (failedFetchMsg witnessAddr "Unauthorized"), none⟩ ∧
      witnessAddr.toList <:+: (failedFetchMsg witnessAddr "Unauthorized").toList ∧
      "Unauthorized".toList <:+: (failedFetchMsg witnessAddr "Unauthorized").toList) ∧
    octavProviderGet (some "key") (some cexText) okFetch =
      ⟨none, some examplePortfolio⟩ := by
  constructor
  · exact (fetch_status_and_success "key" (by decide) cexText witnessAddr rfl
      cexFetch).1 "Unauthorized" rfl
  · simpa using (fetch_status_and_success "key" (by decide) cexText witnessAddr rfl
      okFetch).2 [examplePortfolio] rfl

/-- C10: the provider's get is a total function of its inputs (it never
throws): any result carrying a text carries no data, and a result carrying
data occurs only on the success path - truthy key, message text present, an
address extracted, fetch ok - with the data being element 0 of the parsed
body. -/
theorem provider_result_shape (apiKey : Option String) (messageText : Option String)
    (fetchOutcome : String → FetchOutcome) :
    ((octavProviderGet apiKey messageText fetchOutcome).text.isSome = true →
      (octavProviderGet apiKey messageText fetchOutcome).data = none) ∧
    ((octavProviderGet apiKey messageText fetchOutcome).data.isSome = true →
      (octavProviderGet apiKey messageText fetchOutcome).text = none ∧
      ∃ key text address body, apiKey = some key ∧ ¬ key = "" ∧
        messageText = some text ∧ extractAddressS text = some address ∧
        fetchOutcome address = FetchOutcome.ok body ∧
        (octavProviderGet apiKey messageText fetchOutcome).data = body.head?) := by
  rcases apiKey with _ | key
  · exact ⟨fun _ => rfl, fun h => by simp [octavProviderGet] at h⟩
  · by_cases hkey : key = ""
    · subst hkey
      exact ⟨fun _ => rfl, fun h => by simp [octavProviderGet] at h⟩
    · have hne : ¬ ((some key).getD "" = "") := by simpa using hkey
      rcases messageText with _ | text
      · refine ⟨fun _ => ?_, fun h => ?_⟩
        · simp [octavProviderGet, hkey]
        · simp [octavProviderGet, hkey] at h
      · rcases hext : extractAddressS text with _ | address
        · refine ⟨fun _ => ?_, fun h => ?_⟩
          · simp [octavProviderGet, hkey, hext]
          · simp [octavProviderGet, hkey, hext] at h
        · rcases hf : fetchOutcome address with body | st | m | m
          · have hr : octavProviderGet (some key) (some text) fetchOutcome =
                ⟨none, body.head?⟩ := by
              simp [octavProviderGet, hkey, hext, hf]
            refine ⟨fun htext => ?_, fun _ => ?_⟩
            · rw [hr] at htext
              simp at htext
            · rw [hr]
              refine ⟨rfl, key, text, address, body, rfl, hkey, rfl, hext, hf, rfl⟩
          · have hr : octavProviderGet (some key) (some text) fetchOutcome =
                ⟨some (failedFetchMsg address st), none⟩ := by
              simp [octavProviderGet, hkey, hext, hf]
            refine ⟨fun _ => by rw [hr], fun h => ?_⟩
            rw [hr] at h
            simp at h
          · have hr : octavProviderGet (some key) (some text) fetchOutcome =
                ⟨some m, none⟩ := by
              simp [octavProviderGet, hkey, hext, hf]
            refine ⟨fun _ => by rw [hr], fun h => ?_⟩
            rw [hr] at h
            simp at h
          · have hr : octavProviderGet (some key) (some text) fetchOutcome =
                ⟨some m, none⟩ := by
              simp [octavProviderGet, hkey, hext, hf]
            refine ⟨fun _ => by rw [hr], fun h => ?_⟩
            rw [hr] at h
            simp at h

/-- Witness for C10: the data-bearing branch at a concrete successful
call. -/
theorem provider_result_shape_witness :
    (octavProviderGet (some "key") (some cexText) okFetch).text = none ∧
    ∃ key text address body, (some "key" : Option String) = some key ∧
      ¬ key = "" ∧ (some cexText : Option String) = some text ∧
      extractAddressS text = some address ∧
      okFetch address = FetchOutcome.ok body ∧
      (octavProviderGet (some "key") (some cexText) okFetch).data = body.head? :=
  (provider_result_shape (some "key") (some cexText) okFetch).2 rfl

/-- C1 counterexample: a message asking for the portfolio with the API key
absent - one of the failing-fetch cases of the claim.  The handler result
has success false but NO text field at all and the error "No data", even
though the provider produced and returned the underlying error message; the
claimed uniform shape with the fetch error as user-facing text does not
occur. -/
theorem handler_failure_shape_counterexample :
    getPortfolioHandler none (some cexText) cexFetch none =
      Except.ok ⟨false, none, some "No data"⟩ ∧
    (octavProviderGet none (some cexText) cexFetch).text =
      some octavApiNotFoundMsg :=
  ⟨rfl, rfl⟩

/-- C1 amended: whenever the portfolio fetch fails (missing API key, no
address, non-2xx response - equivalently whenever the provider result
carries no data), the handler returns success false with error "No data"
and no user-facing text, dropping the underlying message; the uniform
success-false shape whose text carries an error message arises only when
the try block itself throws, e.g. a callback throwing on its success
invocation (and returning on the catch invocation). -/
theorem handler_failure_shape :
    (∀ apiKey messageText fetchOutcome callback,
      (octavProviderGet apiKey messageText fetchOutcome).data = none →
      getPortfolioHandler apiKey messageText fetchOutcome callback =
        Except.ok ⟨false, none, some "No data"⟩) ∧
    (∀ apiKey messageText fetchOutcome cb d msg,
      (octavProviderGet apiKey messageText fetchOutcome).data = some d →
      cb false = some msg → cb true = none →
      getPortfolioHandler apiKey messageText fetchOutcome (some cb) =
        Except.ok ⟨false, some ("âŒ " ++ msg), some msg⟩) := by
  constructor
  · intro k t f cb h
    simp [getPortfolioHandler, h]
  · intro k t f cb d msg hd h1 h2
    simp [getPortfolioHandler, hd, h1, h2]

/-- Witness for C1 amended: both branches at concrete inputs. -/
theorem handler_failure_shape_witness :
    getPortfolioHandler none (some witnessText) okFetch none =
      Except.ok ⟨false, none, some "No data"⟩ ∧
    getPortfolioHandler (some "key") (some cexText) okFetch
        (some (fun b => if b then none else some "Callback error")) =
      Except.ok ⟨false, some ("âŒ " ++ "Callback error"), some "Callback error"⟩ :=
  ⟨handler_failure_shape.1 none (some witnessText) okFetch none rfl,
   handler_failure_shape.2 (some "key") (some cexText) okFetch _
     examplePortfolio "Callback error" rfl rfl rfl⟩

end Octav
